import Mathlib

/-
Verification of the wallet message-construction core of the tonsdk
repository (src/tonsdk/contract/wallet/_wallet_contract.py) against its
natural-language specification.

The single source file under src/ is `_wallet_contract.py`; the cell
engine (boc.Cell), the address codec, the signing primitive and the
Contract base class live outside src/ and are modelled from the spec
where a claim depends on them.  Every definition below either embeds a
function of the source file or is marked `Modelled from the spec:`.
-/

namespace TonSdk

/-! ### Bit-string helpers (model of the external bit-string engine)

Modelled from the spec: the cell engine appends fixed-width unsigned
integers, raw bytes and UTF-8 text as bit strings.  Overflow behaviour
of the engine on out-of-range values is not modelled; theorems keep
values in range via hypotheses. -/

/-- Big-endian bit string of width `n` for the value `v % 2^n`. -/
def natToBits (v n : Nat) : List Bool :=
  (List.range n).map (fun i => v.testBit (n - 1 - i))

/-- Model of `BitString.write_uint` (width `n`). -/
def writeUint (v n : Nat) : List Bool :=
  natToBits (v % 2 ^ n) n

/-- Bits of a single byte. -/
def byteBits (b : Nat) : List Bool :=
  writeUint b 8

/-- Model of `BitString.write_bytes`. -/
def writeBytes (bs : List Nat) : List Bool :=
  bs.flatMap byteBits

/-- UTF-8 bytes of a string, as used by `BitString.write_string`. -/
def stringBytes (s : String) : List Nat :=
  (s.data.flatMap String.utf8EncodeChar).map UInt8.toNat

/-! ### Cells

Modelled from the spec: a cell is a bounded bit string plus an ordered
list of child cells. -/

inductive Cell where
  | mk (bits : List Bool) (refs : List Cell)

def Cell.bits : Cell → List Bool
  | .mk b _ => b

def Cell.refs : Cell → List Cell
  | .mk _ r => r

/-- Model of `Cell()`: the empty cell. -/
def Cell.empty : Cell := .mk [] []

/-- Modelled from the spec: `Cell.write_cell` merges another tree into
this one, appending its bits and its children in order. -/
def Cell.writeCell : Cell → Cell → Cell
  | .mk b r, .mk b2 r2 => .mk (b ++ b2) (r ++ r2)

/-- Numeric value of a bit string (most significant bit first). -/
def bitsToNat (l : List Bool) : Nat :=
  l.foldl (fun acc b => 2 * acc + (if b then 1 else 0)) 0

/-- Injective encoding of a list of numbers into one number. -/
def listNatToNat : List Nat → Nat
  | [] => 0
  | a :: l => Nat.pair a (listNatToNat l) + 1

theorem listNatToNat_injective : ∀ {l1 l2 : List Nat},
    listNatToNat l1 = listNatToNat l2 → l1 = l2 := by
  intro l1
  induction l1 with
  | nil =>
    intro l2 h
    cases l2 with
    | nil => rfl
    | cons b t => simp [listNatToNat] at h
  | cons a t ih =>
    intro l2 h
    cases l2 with
    | nil => simp [listNatToNat] at h
    | cons b t2 =>
      simp only [listNatToNat, Nat.add_right_cancel_iff] at h
      rcases Nat.pair_eq_pair.mp h with ⟨h1, h2⟩
      exact h1 ▸ (ih h2) ▸ rfl

/-- Modelled from the spec: a stable content hash over the bits and the
ordered child hashes (`Cell.bytes_hash`); modelled as a collision-free
numeric encoding of the tree. -/
def Cell.bytesHash : Cell → Nat
  | .mk bits refs =>
    Nat.pair (bitsToNat bits)
      (listNatToNat (refs.attach.map (fun c => Cell.bytesHash c.1)))
decreasing_by
  have := List.sizeOf_lt_of_mem c.2
  simp only [Cell.mk.sizeOf_spec] at *
  omega

/-! ### Signing primitive

Modelled from the spec: `sign_message(digest, key).signature` is a
64-byte signature deterministic in the digest and the key, with distinct
(digest, key) pairs producing distinct signatures; modelled as an
injective encoding of the pair. -/

def sign_message (digest : Nat) (key : List Nat) : List Nat :=
  [Nat.pair digest (listNatToNat key) + 1]

theorem sign_message_injective {d1 d2 : Nat} {k1 k2 : List Nat}
    (h : d1 ≠ d2 ∨ k1 ≠ k2) : sign_message d1 k1 ≠ sign_message d2 k2 := by
  intro he
  simp only [sign_message, List.cons.injEq, Nat.add_right_cancel_iff, and_true] at he
  rcases Nat.pair_eq_pair.mp he with ⟨h1, h2⟩
  rcases h with h | h
  · exact h h1
  · exact h (listNatToNat_injective h2)

/-! ### Send modes and transfer instructions (embedding of the source) -/

/-- Embeds `SendModeEnum`: the named bit-flag values. -/
def SendModeEnum.carry_all_remaining_balance : Nat := 128
def SendModeEnum.carry_all_remaining_incoming_value : Nat := 64
def SendModeEnum.destroy_account_if_zero : Nat := 32
def SendModeEnum.ignore_errors : Nat := 2
def SendModeEnum.pay_gas_separately : Nat := 1

/-- The default send mode `ignore_errors | pay_gas_separately`. -/
def defaultSendMode : Nat :=
  SendModeEnum.ignore_errors ||| SendModeEnum.pay_gas_separately

/-- A transfer payload: UTF-8 text, a pre-built cell, or raw bytes
(Python `Union[Cell, str, bytes]`; absence is `Option.none` outside). -/
inductive Payload where
  | text (s : String)
  | cell (c : Cell)
  | bytes (b : List Nat)

/-- Embeds the dataclass `WalletMessage`.  `address` and `amount` are
optional because the Python fields may hold `None` (the dataclass does
not check them; failures only surface later in the address codec or
`decimal.Decimal`). -/
structure WalletMessage where
  address : Option String
  amount : Option Nat
  send_mode : Nat := defaultSendMode
  payload : Option Payload := none
  state_init : Option Cell := none

/-- A Python mapping with the keys `WalletMessage.from_dict` reads.  A
key whose value is `None` is identified with an absent key: the source
only ever reads such a mapping through `d.get`, which conflates the two
(the identification is invisible to every claim below). -/
structure MsgDict where
  address : Option String := none
  amount : Option Nat := none
  send_mode : Option Nat := none
  payload : Option Payload := none
  state_init : Option Cell := none

/-- Number of keys of the mapping (`len(d)` in Python). -/
def MsgDict.len (d : MsgDict) : Nat :=
  (if d.address.isSome then 1 else 0) + (if d.amount.isSome then 1 else 0) +
  (if d.send_mode.isSome then 1 else 0) + (if d.payload.isSome then 1 else 0) +
  (if d.state_init.isSome then 1 else 0)

/-- Embeds `WalletMessage.to_dict`: `address`, `amount` and `send_mode`
are always written; `payload` and `state_init` only when not `None`. -/
def WalletMessage.to_dict (m : WalletMessage) : MsgDict :=
  { address := m.address, amount := m.amount, send_mode := some m.send_mode,
    payload := m.payload, state_init := m.state_init }

/-- Embeds `WalletMessage.from_dict`: `d.get` for each field, with the
default send mode when the key is absent. -/
def WalletMessage.from_dict (d : MsgDict) : WalletMessage :=
  { address := d.address, amount := d.amount,
    send_mode := d.send_mode.getD defaultSendMode,
    payload := d.payload, state_init := d.state_init }

/-! ### Wallet options and errors -/

/-- The keyword options a `WalletContract` is built from (`kwargs` /
`self.options`); a `none` field models an absent key. -/
structure WalletOptions where
  public_key : Option (List Nat) := none
  private_key : Option (List Nat) := none
  address : Option String := none
  public_keys : Option (List (List Nat)) := none

/-- The synchronous errors the modelled operations can raise.
`missingPrivateKey` and `missingPublicKey` are the Python `KeyError`
on `options` lookups; `attributeError` and `typeError` are the Python
errors raised when a recipient is not a usable instruction. -/
inductive Err where
  | configurationError
  | tooManyRecipients
  | missingPrivateKey
  | missingPublicKey
  | attributeError
  | typeError
deriving DecidableEq

/-- Embeds the `WalletContract.__init__` option check: raises unless a
(public key and private key) pair, an address, or `public_keys` is
supplied; otherwise the options are kept. -/
def walletContractInit (o : WalletOptions) : Except Err WalletOptions :=
  if ((o.public_key.isNone || o.private_key.isNone) && o.address.isNone)
      && o.public_keys.isNone then
    .error .configurationError
  else
    .ok o

/-! ### Contract collaborators

The `Contract` base class and the address codec are outside src/; they
are modelled from the spec at their interface boundary. -/

/-- Modelled from the spec: the address codec parses a human-readable
address string (`Address(s)`); the claims below never exercise a
malformed string, so parsing a string always succeeds, while the Python
`Address(None)` call fails with a `TypeError`. -/
def parseAddress : Option String → Except Err String
  | none => .error .typeError
  | some s => .ok s

/-- Modelled from the spec: `decimal.Decimal(amount)` on a `None`
amount fails with a `TypeError`. -/
def toDecimal : Option Nat → Except Err Nat
  | none => .error .typeError
  | some n => .ok n

/-- Embeds `WalletContract.create_data_cell`: a 32-bit zero followed by
the public key bytes. -/
def create_data_cell (public_key : List Nat) : Cell :=
  .mk (writeUint 0 32 ++ writeBytes public_key) []

/-- Modelled from the spec: the wallet code tree supplied by the
deploy-template provider (a fixed tree; its contents are opaque to
every claim below). -/
def codeCell : Cell := .mk [true] []

/-- Modelled from the spec: the address derived from the deployment
package. -/
def derivedAddress (state_init : Cell) : String :=
  toString state_init.bytesHash

/-- The deployment package: state-init, code, data and derived address. -/
structure StateInitResult where
  state_init : Cell
  address : String
  code : Cell
  data : Cell

/-- Modelled from the spec: the deploy-template provider
(`Contract.create_state_init`) is a pure function of the wallet public
key (`options["public_key"]`, a `KeyError` when absent) returning the
state-init, code and data trees and the derived address. -/
def create_state_init (w : WalletOptions) : Except Err StateInitResult :=
  match w.public_key with
  | none => .error .missingPublicKey
  | some pk =>
    let data := create_data_cell pk
    let si : Cell := .mk [] [codeCell, data]
    .ok ⟨si, derivedAddress si, codeCell, data⟩

/-- Modelled from the spec: `self.address` is the explicit address
option when present, otherwise the address derived from the deployment
package. -/
def walletAddress (w : WalletOptions) : Except Err String :=
  match w.address with
  | some a => .ok a
  | none => (create_state_init w).map (fun r => r.address)

/-- Modelled from the spec: `Contract.create_internal_message_header`
encodes the destination address and the amount into a header cell. -/
def create_internal_message_header (dest : String) (amount : Nat) : Cell :=
  .mk (writeBytes (stringBytes dest) ++ writeUint amount 64) []

/-- Modelled from the spec: `Contract.create_external_message_header`
encodes the source wallet address into a header cell. -/
def create_external_message_header (addr : String) : Cell :=
  .mk (writeBytes (stringBytes addr)) []

/-- Modelled from the spec: `Contract.create_common_msg_info` combines
a header, an optional state-init tree and a body tree into one cell,
preserving the order header, state-init, body. -/
def create_common_msg_info (header : Cell) (state_init : Option Cell)
    (body : Cell) : Cell :=
  match state_init with
  | none => .mk (header.bits ++ [false]) (header.refs ++ [body])
  | some si => .mk (header.bits ++ [true]) (header.refs ++ [si, body])

/-! ### The wallet operations (embedding of the source) -/

/-- Python `seqno or 0`: `None` and `0` are falsy. -/
def pyOr0 : Option Nat → Nat
  | none => 0
  | some n => n

/-- Embeds `WalletContract.create_signing_message`: a cell holding the
32-bit replay counter, with `seqno or 0` applied first. -/
def create_signing_message (seqno : Option Nat) : Cell :=
  .mk (writeUint (pyOr0 seqno) 32) []

/-- Python truthiness of the `payload` local (`if payload:`): `None`,
the empty string and empty bytes are falsy; a cell object is truthy. -/
def payloadTruthy : Option Payload → Bool
  | none => false
  | some (.text s) => !s.isEmpty
  | some (.cell _) => true
  | some (.bytes b) => !b.isEmpty

/-- Embeds the payload dispatch of `create_transfer_message`: start
from an empty cell; when the payload is truthy, a string writes a
32-bit zero then its UTF-8 bytes, a cell replaces the cell wholesale,
and anything else is written as raw bytes. -/
def serializePayload (p : Option Payload) : Cell :=
  if payloadTruthy p then
    match p with
    | some (.text s) => .mk (writeUint 0 32 ++ writeBytes (stringBytes s)) []
    | some (.cell c) => c
    | some (.bytes b) => .mk (writeBytes b) []
    | none => Cell.empty
  else Cell.empty

/-- One element of a recipients list: a `WalletMessage` or a mapping. -/
inductive RecipientItem where
  | msg (m : WalletMessage)
  | dict (d : MsgDict)

/-- The `recipients_list` argument before normalization: a single
`WalletMessage`, a mapping, or a list. -/
inductive Recipients where
  | single (m : WalletMessage)
  | dict (d : MsgDict)
  | list (l : List RecipientItem)

/-- Python `len(recipients_list)` after normalization (a list or a
mapping; a single `WalletMessage` has been wrapped by then). -/
def recipientsLen : Recipients → Nat
  | .single _ => 1
  | .dict d => d.len
  | .list l => l.length

/-- The loop body conversion: `if isinstance(recipient, dict):
recipient = WalletMessage.from_dict(recipient)`. -/
def RecipientItem.toMsg : RecipientItem → WalletMessage
  | .msg m => m
  | .dict d => WalletMessage.from_dict d

/-- Embeds the recipient loop of `create_transfer_message`: for each
recipient in order, serialize its payload, build the order cell from
the parsed address, the amount, the optional state-init and the payload
cell, then append the send-mode byte to the signing-message bits and
the order cell to its children. -/
def transferLoop (sm : Cell) : List RecipientItem → Except Err Cell
  | [] => .ok sm
  | r :: rest =>
    let m := r.toMsg
    let payload_cell := serializePayload m.payload
    match parseAddress m.address with
    | .error e => .error e
    | .ok a =>
      match toDecimal m.amount with
      | .error e => .error e
      | .ok amt =>
        let order_header := create_internal_message_header a amt
        let order := create_common_msg_info order_header m.state_init payload_cell
        transferLoop (.mk (sm.bits ++ writeUint m.send_mode 8) (sm.refs ++ [order])) rest

/-- Iterating a Python mapping yields its keys (strings); the loop then
fails with an `AttributeError` at `recipient.payload` on the first key,
so a mapping passed as `recipients_list` only survives the loop when it
is empty. -/
def dictLoop (sm : Cell) (d : MsgDict) : Except Err Cell :=
  if d.len = 0 then .ok sm else .error .attributeError

/-- The loop over the normalized `recipients_list`. -/
def recipientsLoop (sm : Cell) : Recipients → Except Err Cell
  | .single m => transferLoop sm [.msg m]
  | .dict d => dictLoop sm d
  | .list l => transferLoop sm l

/-- The envelope returned by `create_external_message`. -/
structure Envelope where
  address : String
  message : Cell
  body : Cell
  signature : List Nat
  signing_message : Cell
  state_init : Option Cell
  code : Option Cell
  data : Option Cell

/-- Embeds `WalletContract.create_external_message`: the signature is
64 zero bytes in dummy mode and otherwise the signing primitive applied
to the signing-message hash and `options["private_key"]` (a `KeyError`
when absent); the body is the signature bytes followed by the signing
message; the deployment package is attached exactly when `seqno == 0`
(Python `None == 0` is false). -/
def create_external_message (w : WalletOptions) (signing_message : Cell)
    (seqno : Option Nat) (dummy_signature : Bool) : Except Err Envelope :=
  let sigE : Except Err (List Nat) :=
    if dummy_signature then .ok (List.replicate 64 0)
    else match w.private_key with
      | none => .error .missingPrivateKey
      | some k => .ok (sign_message signing_message.bytesHash k)
  match sigE with
  | .error e => .error e
  | .ok signature =>
    let body := Cell.writeCell (.mk (writeBytes signature) []) signing_message
    let deployE : Except Err (Option Cell × Option Cell × Option Cell) :=
      if seqno = some 0 then
        match create_state_init w with
        | .error e => .error e
        | .ok deploy => .ok (some deploy.state_init, some deploy.code, some deploy.data)
      else .ok (none, none, none)
    match deployE with
    | .error e => .error e
    | .ok (si, code, data) =>
      match walletAddress w with
      | .error e => .error e
      | .ok self_address =>
        let header := create_external_message_header self_address
        let result_message := create_common_msg_info header si body
        .ok { address := self_address, message := result_message, body := body,
              signature := signature, signing_message := signing_message,
              state_init := si, code := code, data := data }

/-- Embeds `WalletContract.create_transfer_message`: normalize the
recipients argument (`None` becomes the one-instruction list built from
the scalar arguments, a bare `WalletMessage` is wrapped in a list, a
list or mapping is kept), reject more than 4 recipients, build the
signing message, run the recipient loop, and hand off to
`create_external_message`. -/
def create_transfer_message (w : WalletOptions) (to_addr : Option String)
    (amount : Option Nat) (seqno : Option Nat) (payload : Option Payload)
    (send_mode : Nat) (dummy_signature : Bool) (state_init : Option Cell)
    (recipients_list : Option Recipients) : Except Err Envelope :=
  let rl : Recipients :=
    match recipients_list with
    | none => .list [.msg { address := to_addr, amount := amount,
                            send_mode := send_mode, payload := payload,
                            state_init := state_init }]
    | some (.single m) => .list [.msg m]
    | some r => r
  if recipientsLen rl > 4 then .error .tooManyRecipients
  else
    match recipientsLoop (create_signing_message seqno) rl with
    | .error e => .error e
    | .ok signing_message =>
      create_external_message w signing_message seqno dummy_signature

/-- Embeds `WalletContract.create_init_external_message`: always fetch
the deployment package first, build a seqno-0 signing message with no
branches, always sign for real, and assemble the same envelope shape. -/
def create_init_external_message (w : WalletOptions) : Except Err Envelope :=
  match create_state_init w with
  | .error e => .error e
  | .ok csi =>
    let signing_message := create_signing_message none
    match w.private_key with
    | .none => .error .missingPrivateKey
    | .some k =>
      let signature := sign_message signing_message.bytesHash k
      let body := Cell.writeCell (.mk (writeBytes signature) []) signing_message
      let header := create_external_message_header csi.address
      let external_message := create_common_msg_info header (some csi.state_init) body
      .ok { address := csi.address, message := external_message, body := body,
            signature := signature, signing_message := signing_message,
            state_init := some csi.state_init, code := some csi.code,
            data := some csi.data }

/-! ### Helpers for the verification -/

/-- Extract the envelope of a successful call (with a default). -/
def getEnv (e : Except Err Envelope) (dflt : Envelope) : Envelope :=
  match e with
  | .ok v => v
  | .error _ => dflt

/-- A throwaway default envelope. -/
def dfltEnv : Envelope :=
  { address := "", message := Cell.empty, body := Cell.empty, signature := [],
    signing_message := Cell.empty, state_init := none, code := none, data := none }

/-- A wallet holding a keypair, used to instantiate theorems. -/
def pkWallet : WalletOptions :=
  { public_key := some [1], private_key := some [2] }

/-- The order cell the recipient loop builds for a well-formed
instruction (address and amount present). -/
def orderOf (m : WalletMessage) : Cell :=
  create_common_msg_info
    (create_internal_message_header (m.address.getD "") (m.amount.getD 0))
    m.state_init (serializePayload m.payload)

/-- A recipient the loop can process: address and amount present. -/
def wfItem (r : RecipientItem) : Prop :=
  r.toMsg.address.isSome = true ∧ r.toMsg.amount.isSome = true

/-- The recipient loop on well-formed recipients succeeds and appends,
in input order, one send-mode byte to the bits and one order cell to
the children per recipient. -/
theorem transferLoop_spec : ∀ (l : List RecipientItem) (sm : Cell),
    (∀ r ∈ l, wfItem r) →
    transferLoop sm l = .ok (Cell.mk
      (sm.bits ++ (l.map (fun r => writeUint r.toMsg.send_mode 8)).flatten)
      (sm.refs ++ l.map (fun r => orderOf r.toMsg))) := by
  intro l
  induction l with
  | nil =>
    intro sm h
    cases sm
    simp [transferLoop, Cell.bits, Cell.refs]
  | cons r rest ih =>
    intro sm h
    obtain ⟨ha, hm⟩ := h r (List.mem_cons_self r rest)
    obtain ⟨a, ha⟩ := Option.isSome_iff_exists.mp ha
    obtain ⟨n, hn⟩ := Option.isSome_iff_exists.mp hm
    have hrest : ∀ x ∈ rest, wfItem x := fun x hx => h x (List.mem_cons_of_mem _ hx)
    simp only [transferLoop, ha, hn, parseAddress, toDecimal]
    rw [ih _ hrest]
    simp [orderOf, ha, hn, Cell.bits, Cell.refs, List.append_assoc]

/-- The recipient loop can only fail with a `TypeError` or an
`AttributeError`, never with a missing-key error. -/
theorem recipientsLoop_error_kinds (rl : Recipients) (sm : Cell) (e : Err)
    (h : recipientsLoop sm rl = .error e) :
    e = .typeError ∨ e = .attributeError := by
  have loopKinds : ∀ (l : List RecipientItem) (sm : Cell),
      transferLoop sm l = .error e → e = .typeError ∨ e = .attributeError := by
    intro l
    induction l with
    | nil => intro sm h; exact absurd h (by simp [transferLoop])
    | cons r rest ih =>
      intro sm h
      simp only [transferLoop] at h
      cases haddr : (r.toMsg).address with
      | none =>
        rw [haddr] at h
        simp only [parseAddress] at h
        cases h
        exact Or.inl rfl
      | some a =>
        rw [haddr] at h
        simp only [parseAddress] at h
        cases hamt : (r.toMsg).amount with
        | none =>
          rw [hamt] at h
          simp only [toDecimal] at h
          cases h
          exact Or.inl rfl
        | some n =>
          rw [hamt] at h
          simp only [toDecimal] at h
          exact ih _ h
  cases rl with
  | single m => exact loopKinds _ _ h
  | list l => exact loopKinds _ _ h
  | dict d =>
    simp only [recipientsLoop, dictLoop] at h
    by_cases hd : d.len = 0
    · simp [hd] at h
    · simp only [if_neg hd] at h
      cases h
      exact Or.inr rfl

/-- Field contract of a successful `create_external_message` call: the
signing message is passed through; the deployment triple is populated
exactly when `seqno` is literally `0`; the signature is the 64 zero
bytes in dummy mode and the signed hash otherwise. -/
theorem cem_ok_fields (w : WalletOptions) (sm : Cell) (seqno : Option Nat)
    (dummy : Bool) (env : Envelope)
    (h : create_external_message w sm seqno dummy = .ok env) :
    env.signing_message = sm ∧
    ((env.state_init.isSome = true ∧ env.code.isSome = true ∧ env.data.isSome = true)
        ↔ seqno = some 0) ∧
    (seqno ≠ some 0 → env.state_init = none ∧ env.code = none ∧ env.data = none) ∧
    (dummy = true → env.signature = List.replicate 64 0) ∧
    (∀ k, dummy = false → w.private_key = some k →
      env.signature = sign_message sm.bytesHash k) := by
  simp only [create_external_message] at h
  split at h
  · cases h
  · rename_i signature hsig
    split at h
    · cases h
    · rename_i si code data hdep
      split at h
      · cases h
      · rename_i self_address haddr
        cases h
        refine ⟨rfl, ?_, ?_, ?_, ?_⟩
        · by_cases hs : seqno = some 0
          · rw [if_pos hs] at hdep
            cases hcsi : create_state_init w with
            | error e => rw [hcsi] at hdep; cases hdep
            | ok d =>
              rw [hcsi] at hdep
              cases hdep
              simp [hs]
          · rw [if_neg hs] at hdep
            cases hdep
            simp [hs]
        · intro hs
          rw [if_neg hs] at hdep
          cases hdep
          exact ⟨rfl, rfl, rfl⟩
        · intro hd
          rw [if_pos hd] at hsig
          cases hsig
          rfl
        · intro k hd hk
          rw [hd] at hsig
          simp only [Bool.false_eq_true, if_false, hk] at hsig
          cases hsig
          rfl

/-- A successful `create_transfer_message` call went through
`create_external_message` on some signing message. -/
theorem ctm_to_cem (w : WalletOptions) (toa : Option String) (amount seqno : Option Nat)
    (p : Option Payload) (mode : Nat) (dummy : Bool) (si : Option Cell)
    (rl : Option Recipients) (env : Envelope)
    (h : create_transfer_message w toa amount seqno p mode dummy si rl = .ok env) :
    ∃ sm, create_external_message w sm seqno dummy = .ok env := by
  simp only [create_transfer_message] at h
  split at h
  · cases h
  · split at h
    · cases h
    · exact ⟨_, h⟩

/-- The recipient loop only ever appends to the bits of the signing
message it starts from. -/
theorem transferLoop_bits_grow : ∀ (l : List RecipientItem) (sm sm' : Cell),
    transferLoop sm l = .ok sm' → ∃ ext, sm'.bits = sm.bits ++ ext := by
  intro l
  induction l with
  | nil =>
    intro sm sm' h
    cases h
    exact ⟨[], (List.append_nil _).symm⟩
  | cons r rest ih =>
    intro sm sm' h
    simp only [transferLoop] at h
    cases haddr : (r.toMsg).address with
    | none => rw [haddr] at h; simp only [parseAddress] at h; cases h
    | some a =>
      rw [haddr] at h
      simp only [parseAddress] at h
      cases hamt : (r.toMsg).amount with
      | none => rw [hamt] at h; simp only [toDecimal] at h; cases h
      | some n =>
        rw [hamt] at h
        simp only [toDecimal] at h
        obtain ⟨ext, hext⟩ := ih _ _ h
        refine ⟨writeUint (r.toMsg).send_mode 8 ++ ext, ?_⟩
        rw [hext]
        simp [Cell.bits, List.append_assoc]

/-- The loop over any normalized recipients argument only appends to
the bits of the signing message. -/
theorem recipientsLoop_bits_grow (rl : Recipients) (sm sm' : Cell)
    (h : recipientsLoop sm rl = .ok sm') : ∃ ext, sm'.bits = sm.bits ++ ext := by
  cases rl with
  | single m => exact transferLoop_bits_grow _ _ _ h
  | list l => exact transferLoop_bits_grow _ _ _ h
  | dict d =>
    simp only [recipientsLoop, dictLoop] at h
    by_cases h0 : d.len = 0
    · rw [if_pos h0] at h
      cases h
      exact ⟨[], (List.append_nil _).symm⟩
    · rw [if_neg h0] at h
      cases h

/-- The signing message of a successful `create_transfer_message` call
starts with the 32-bit replay counter `seqno or 0`. -/
theorem ctm_signing_bits (w : WalletOptions) (toa : Option String)
    (amount seqno : Option Nat) (p : Option Payload) (mode : Nat) (dummy : Bool)
    (si : Option Cell) (rl : Option Recipients) (env : Envelope)
    (h : create_transfer_message w toa amount seqno p mode dummy si rl = .ok env) :
    ∃ ext, env.signing_message.bits = writeUint (pyOr0 seqno) 32 ++ ext := by
  simp only [create_transfer_message] at h
  split at h
  · cases h
  · split at h
    · cases h
    · rename_i sm hloop
      have hsm := (cem_ok_fields _ _ _ _ _ h).1
      obtain ⟨ext, hext⟩ := recipientsLoop_bits_grow _ _ _ hloop
      rw [hsm]
      exact ⟨ext, by simpa [create_signing_message, Cell.bits] using hext⟩

/-- The deploy-template provider can only fail for a missing public
key. -/
theorem create_state_init_error (w : WalletOptions) (e : Err)
    (h : create_state_init w = .error e) : e = .missingPublicKey := by
  unfold create_state_init at h
  cases hpk : w.public_key with
  | none => rw [hpk] at h; cases h; rfl
  | some pk => rw [hpk] at h; cases h

/-- The wallet address lookup can only fail for a missing public key. -/
theorem walletAddress_error (w : WalletOptions) (e : Err)
    (h : walletAddress w = .error e) : e = .missingPublicKey := by
  unfold walletAddress at h
  cases ha : w.address with
  | some a => rw [ha] at h; cases h
  | none =>
    rw [ha] at h
    cases hcsi : create_state_init w with
    | error e2 =>
      rw [hcsi] at h
      cases h
      exact create_state_init_error w _ hcsi
    | ok d => rw [hcsi] at h; cases h

/-- `create_external_message` succeeds when a signature source is
available, a public key backs any deployment request, and the wallet
has an address or a public key. -/
theorem cem_isOk (w : WalletOptions) (sm : Cell) (seqno : Option Nat) (dummy : Bool)
    (hsig : dummy = true ∨ w.private_key.isSome = true)
    (hdep : seqno = some 0 → w.public_key.isSome = true)
    (haddr : w.address.isSome = true ∨ w.public_key.isSome = true) :
    (create_external_message w sm seqno dummy).isOk = true := by
  have hsi : seqno = some 0 → ∃ d, create_state_init w = Except.ok d := by
    intro hs
    obtain ⟨pk, hpk⟩ := Option.isSome_iff_exists.mp (hdep hs)
    unfold create_state_init
    rw [hpk]
    exact ⟨_, rfl⟩
  have hwa : ∃ a, walletAddress w = Except.ok a := by
    rcases ha : w.address with _ | a
    · rcases haddr with h | h
      · rw [ha] at h; cases h
      · obtain ⟨pk, hpk⟩ := Option.isSome_iff_exists.mp h
        unfold walletAddress create_state_init
        rw [ha, hpk]
        exact ⟨_, rfl⟩
    · unfold walletAddress
      rw [ha]
      exact ⟨a, rfl⟩
  obtain ⟨a, hwa⟩ := hwa
  cases dummy with
  | true =>
    by_cases hs : seqno = some 0
    · obtain ⟨d, hd⟩ := hsi hs
      simp [create_external_message, hs, hd, hwa, Except.isOk, Except.toBool]
    · simp [create_external_message, hs, hwa, Except.isOk, Except.toBool]
  | false =>
    rcases hsig with h | h
    · cases h
    · obtain ⟨k, hk⟩ := Option.isSome_iff_exists.mp h
      by_cases hs : seqno = some 0
      · obtain ⟨d, hd⟩ := hsi hs
        simp [create_external_message, hk, hs, hd, hwa, Except.isOk, Except.toBool]
      · simp [create_external_message, hk, hs, hwa, Except.isOk, Except.toBool]

/-- In dummy mode `create_external_message` never reports a missing
private key. -/
theorem cem_dummy_not_mpk (w : WalletOptions) (sm : Cell) (seqno : Option Nat) :
    create_external_message w sm seqno true ≠ .error .missingPrivateKey := by
  intro h
  by_cases hs : seqno = some 0 <;>
    rcases hcsi : create_state_init w with e | d <;>
      rcases hwa : walletAddress w with e2 | a
  all_goals
    first
    | (have he := create_state_init_error w _ hcsi
       have he2 := walletAddress_error w _ hwa
       simp [create_external_message, hs, hcsi, hwa, he, he2] at h)
    | (have he := create_state_init_error w _ hcsi
       simp [create_external_message, hs, hcsi, hwa, he] at h)
    | (have he2 := walletAddress_error w _ hwa
       simp [create_external_message, hs, hcsi, hwa, he2] at h)
    | simp [create_external_message, hs, hcsi, hwa] at h

/-! ### The claims -/

/-- C6: serializing a `WalletMessage` with `to_dict` and parsing the
result with `from_dict` yields the original instruction; a mapping that
omits `send_mode`, `payload` and `state_init` parses to the default
send mode with the other two fields absent. -/
theorem claim_C6 :
    (∀ m : WalletMessage, WalletMessage.from_dict m.to_dict = m) ∧
    (∀ (a : Option String) (n : Option Nat),
      WalletMessage.from_dict { address := a, amount := n } =
        { address := a, amount := n, send_mode := defaultSendMode,
          payload := none, state_init := none }) :=
  ⟨fun _ => rfl, fun _ _ => rfl⟩

/-- C7: `WalletContract` construction fails exactly when the options
contain neither a (public key and private key) pair, nor an address,
nor the multi-key variant `public_keys`. -/
theorem claim_C7 (o : WalletOptions) :
    walletContractInit o = .error .configurationError ↔
      ¬ ((o.public_key.isSome = true ∧ o.private_key.isSome = true) ∨
         o.address.isSome = true ∨ o.public_keys.isSome = true) := by
  rcases hpk : o.public_key with _ | pk <;> rcases hsk : o.private_key with _ | sk <;>
    rcases ha : o.address with _ | a <;> rcases hks : o.public_keys with _ | ks <;>
      simp [walletContractInit, hpk, hsk, ha, hks]

/-- C4 counterexample: the empty string is a text payload, yet its
sub-cell is the empty cell, whose bits do not begin with the 32-bit
zero marker the claim requires for every text payload. -/
theorem claim_C4_counterexample :
    ((serializePayload (some (.text ""))).bits.take 32 ≠ writeUint 0 32) ∧
    serializePayload (some (.text "")) = Cell.empty := by
  exact ⟨by decide, rfl⟩

/-- C4 (amended): the three-way payload dispatch holds for truthy
payloads: a non-empty text yields the 32-bit zero marker followed by
its UTF-8 bytes, a pre-built cell is embedded unchanged, non-empty raw
bytes are written with no marker; an absent payload, the empty string
and empty bytes all yield the empty sub-cell. -/
theorem claim_C4 :
    (∀ s : String, s ≠ "" →
      serializePayload (some (.text s)) =
        .mk (writeUint 0 32 ++ writeBytes (stringBytes s)) []) ∧
    (∀ c : Cell, serializePayload (some (.cell c)) = c) ∧
    (∀ b : List Nat, b ≠ [] →
      serializePayload (some (.bytes b)) = .mk (writeBytes b) []) ∧
    serializePayload none = Cell.empty ∧
    serializePayload (some (.text "")) = Cell.empty ∧
    serializePayload (some (.bytes [])) = Cell.empty := by
  refine ⟨?_, ?_, ?_, rfl, rfl, rfl⟩
  · intro s hs
    have he : s.isEmpty = false := by
      cases he : s.isEmpty
      · rfl
      · exact absurd ((String.isEmpty_iff s).mp he) hs
    simp [serializePayload, payloadTruthy, he]
  · intro c
    simp [serializePayload, payloadTruthy]
  · intro b hb
    cases b with
    | nil => exact absurd rfl hb
    | cons x xs => simp [serializePayload, payloadTruthy]

/-- C4 witness: the dispatch evaluated on the text payload `A` and on
the raw byte `7`. -/
theorem claim_C4_witness :
    serializePayload (some (.text "A")) =
      .mk (writeUint 0 32 ++ writeBytes (stringBytes "A")) [] ∧
    serializePayload (some (.bytes [7])) = .mk (writeBytes [7]) [] :=
  ⟨claim_C4.1 "A" (by decide), claim_C4.2.2.1 [7] (by decide)⟩

/-- C3: a dummy signature is always the 64 zero bytes regardless of
the wallet options; a real signature is the signing primitive applied
to the signing-message hash and the private key, and distinct
(hash, key) pairs sign to distinct signatures. -/
theorem claim_C3 :
    (∀ (w : WalletOptions) (sm : Cell) (seqno : Option Nat) (env : Envelope),
      create_external_message w sm seqno true = .ok env →
      env.signature = List.replicate 64 0) ∧
    (∀ (w : WalletOptions) (sm : Cell) (seqno : Option Nat) (k : List Nat) (env : Envelope),
      w.private_key = some k →
      create_external_message w sm seqno false = .ok env →
      env.signature = sign_message sm.bytesHash k) ∧
    (∀ (d1 d2 : Nat) (k1 k2 : List Nat), d1 ≠ d2 ∨ k1 ≠ k2 →
      sign_message d1 k1 ≠ sign_message d2 k2) := by
  refine ⟨?_, ?_, fun d1 d2 k1 k2 h => sign_message_injective h⟩
  · intro w sm seqno env h
    exact (cem_ok_fields w sm seqno true env h).2.2.2.1 rfl
  · intro w sm seqno k env hk h
    exact (cem_ok_fields w sm seqno false env h).2.2.2.2 k rfl hk

/-- C3 witness: a dummy and a real signature of the empty signing
message under the keypair wallet, and two distinct digests signed. -/
theorem claim_C3_witness :
    (getEnv (create_external_message pkWallet Cell.empty (some 1) true) dfltEnv).signature =
      List.replicate 64 0 ∧
    (getEnv (create_external_message pkWallet Cell.empty (some 1) false) dfltEnv).signature =
      sign_message Cell.empty.bytesHash [2] ∧
    sign_message 1 [1] ≠ sign_message 2 [1] :=
  ⟨claim_C3.1 pkWallet Cell.empty (some 1) _ rfl,
   claim_C3.2.1 pkWallet Cell.empty (some 1) [2] _ rfl rfl,
   claim_C3.2.2 1 2 [1] [1] (Or.inl (by decide))⟩

/-- C9 counterexample: a mapping with the two keys address and amount
passed directly as `recipients_list` fails with an `AttributeError`
(the loop iterates over its keys), while the one-element list holding
the same mapping succeeds. -/
theorem claim_C9_counterexample :
    (create_transfer_message pkWallet none none (some 5) none defaultSendMode true none
        (some (.dict { address := some "EQa", amount := some 5 }))) =
      .error .attributeError ∧
    (create_transfer_message pkWallet none none (some 5) none defaultSendMode true none
        (some (.list [.dict { address := some "EQa", amount := some 5 }]))).isOk = true :=
  ⟨rfl, rfl⟩

/-- C9 (amended): a single `WalletMessage` passed as `recipients_list`
is normalized into a one-element list and yields the same envelope; a
single mapping is not normalized: a non-empty mapping of at most 4 keys
is iterated key-by-key and fails with an `AttributeError`. -/
theorem claim_C9 :
    (∀ (w : WalletOptions) (toa : Option String)
        (amount seqno : Option Nat) (p : Option Payload) (mode : Nat) (dummy : Bool)
        (si : Option Cell) (m : WalletMessage),
      create_transfer_message w toa amount seqno p mode dummy si (some (.single m)) =
        create_transfer_message w toa amount seqno p mode dummy si (some (.list [.msg m]))) ∧
    (∀ (w : WalletOptions) (toa : Option String) (amount seqno : Option Nat)
        (p : Option Payload) (mode : Nat) (dummy : Bool) (si : Option Cell) (d : MsgDict),
      d.len ≠ 0 → d.len ≤ 4 →
      create_transfer_message w toa amount seqno p mode dummy si (some (.dict d)) =
        .error .attributeError) := by
  constructor
  · intros
    rfl
  · intro w toa amount seqno p mode dummy si d h0 h4
    simp only [create_transfer_message, recipientsLen]
    rw [if_neg (by omega)]
    simp only [recipientsLoop, dictLoop, if_neg h0]

/-- C9 witness: the amended claim evaluated on a one-key mapping and
on a concrete single instruction. -/
theorem claim_C9_witness :
    create_transfer_message pkWallet none none (some 1) none 3 true none
        (some (.dict { address := some "x" })) = .error .attributeError ∧
    create_transfer_message pkWallet none none (some 1) none 3 true none
        (some (.single { address := some "x", amount := some 1 })) =
      create_transfer_message pkWallet none none (some 1) none 3 true none
        (some (.list [.msg { address := some "x", amount := some 1 }])) :=
  ⟨claim_C9.2 pkWallet none (some 1) (some 1) none 3 true none
      { address := some "x" } (by decide) (by decide),
   claim_C9.1 pkWallet none (some 1) (some 1) none 3 true none
      { address := some "x", amount := some 1 }⟩

/-- C1: the envelope returned by `create_transfer_message` carries the
deployment triple (state-init, code, data) exactly when the seqno
argument is literally 0; for any other seqno, including an absent one,
all three fields are null. -/
theorem claim_C1 (w : WalletOptions) (toa : Option String) (amount seqno : Option Nat)
    (p : Option Payload) (mode : Nat) (dummy : Bool) (si : Option Cell)
    (rl : Option Recipients) (env : Envelope)
    (h : create_transfer_message w toa amount seqno p mode dummy si rl = .ok env) :
    ((env.state_init.isSome = true ∧ env.code.isSome = true ∧ env.data.isSome = true)
        ↔ seqno = some 0) ∧
    (seqno ≠ some 0 → env.state_init = none ∧ env.code = none ∧ env.data = none) := by
  obtain ⟨sm, hc⟩ := ctm_to_cem w toa amount seqno p mode dummy si rl env h
  have hf := cem_ok_fields w sm seqno dummy env hc
  exact ⟨hf.2.1, hf.2.2.1⟩

/-- C1 witness: with seqno 0 the deployment data is present, with
seqno 5 it is absent. -/
theorem claim_C1_witness :
    (getEnv (create_transfer_message pkWallet (some "EQa") (some 5) (some 0) none 3 true none
        none) dfltEnv).state_init.isSome = true ∧
    (getEnv (create_transfer_message pkWallet (some "EQa") (some 5) (some 5) none 3 true none
        none) dfltEnv).state_init = none :=
  ⟨((claim_C1 pkWallet (some "EQa") (some 5) (some 0) none 3 true none none _ rfl).1.mpr
      rfl).1,
   ((claim_C1 pkWallet (some "EQa") (some 5) (some 5) none 3 true none none _ rfl).2
      (by simp)).1⟩

/-- C10: with the seqno argument absent, the signing payload still
opens with a 32-bit zero replay counter, but the envelope carries no
deployment data, because `seqno == 0` compares the original `None`. -/
theorem claim_C10 (w : WalletOptions) (toa : Option String) (amount : Option Nat)
    (p : Option Payload) (mode : Nat) (dummy : Bool) (si : Option Cell)
    (rl : Option Recipients) (env : Envelope)
    (h : create_transfer_message w toa amount none p mode dummy si rl = .ok env) :
    env.signing_message.bits.take 32 = writeUint 0 32 ∧
    env.state_init = none ∧ env.code = none ∧ env.data = none := by
  obtain ⟨sm, hc⟩ := ctm_to_cem w toa amount none p mode dummy si rl env h
  have hf := cem_ok_fields w sm none dummy env hc
  refine ⟨?_, hf.2.2.1 (by simp)⟩
  obtain ⟨ext, hbits⟩ := ctm_signing_bits w toa amount none p mode dummy si rl env h
  have hl : (writeUint (pyOr0 none) 32).length = 32 := by
    simp [writeUint, natToBits]
  rw [hbits]
  exact List.take_left' hl

/-- C10 witness: a call with no seqno evaluated on a concrete wallet
and destination. -/
theorem claim_C10_witness :
    (getEnv (create_transfer_message pkWallet (some "EQa") (some 5) none none 3 true none
        none) dfltEnv).signing_message.bits.take 32 = writeUint 0 32 ∧
    (getEnv (create_transfer_message pkWallet (some "EQa") (some 5) none none 3 true none
        none) dfltEnv).state_init = none :=
  ⟨(claim_C10 pkWallet (some "EQa") (some 5) none 3 true none none _ rfl).1,
   (claim_C10 pkWallet (some "EQa") (some 5) none 3 true none none _ rfl).2.1⟩

/-- C2: every recipients list of length at most 4 whose entries are
processable (address and amount present, a signature source, a public
key backing any deployment, an address or public key for the header)
yields an envelope; every list of length 5 or more is rejected with the
too-many-recipients error before anything is constructed. -/
theorem claim_C2 :
    (∀ (w : WalletOptions) (seqno : Option Nat) (dummy : Bool) (l : List RecipientItem),
      l.length ≤ 4 →
      (∀ r ∈ l, wfItem r) →
      (dummy = true ∨ w.private_key.isSome = true) →
      (seqno = some 0 → w.public_key.isSome = true) →
      (w.address.isSome = true ∨ w.public_key.isSome = true) →
      (create_transfer_message w none none seqno none defaultSendMode dummy none
        (some (.list l))).isOk = true) ∧
    (∀ (w : WalletOptions) (toa : Option String) (amount seqno : Option Nat)
        (p : Option Payload) (mode : Nat) (dummy : Bool) (si : Option Cell)
        (l : List RecipientItem),
      5 ≤ l.length →
      create_transfer_message w toa amount seqno p mode dummy si (some (.list l)) =
        .error .tooManyRecipients) := by
  constructor
  · intro w seqno dummy l h4 hwf hsig hdep haddr
    simp only [create_transfer_message, recipientsLen]
    rw [if_neg (by omega)]
    simp only [recipientsLoop]
    rw [transferLoop_spec l _ hwf]
    exact cem_isOk w _ seqno dummy hsig hdep haddr
  · intro w toa amount seqno p mode dummy si l h5
    simp only [create_transfer_message, recipientsLen]
    rw [if_pos (by omega)]

/-- C2 witness: lists of length 0 and 4 succeed, a list of length 5 is
rejected. -/
theorem claim_C2_witness :
    (create_transfer_message pkWallet none none (some 5) none defaultSendMode true none
      (some (.list []))).isOk = true ∧
    (create_transfer_message pkWallet none none (some 5) none defaultSendMode true none
      (some (.list (List.replicate 4
        (.msg { address := some "EQa", amount := some 1 }))))).isOk = true ∧
    create_transfer_message pkWallet none none (some 5) none defaultSendMode true none
      (some (.list (List.replicate 5
        (.msg { address := some "EQa", amount := some 1 })))) =
      .error .tooManyRecipients := by
  refine ⟨claim_C2.1 pkWallet (some 5) true [] (by decide) (by intro r hr; cases hr)
      (Or.inl rfl) (by intro h; cases h) (Or.inr rfl),
    claim_C2.1 pkWallet (some 5) true _ (by decide) ?_
      (Or.inl rfl) (by intro h; cases h) (Or.inr rfl),
    claim_C2.2 pkWallet none none (some 5) none defaultSendMode true none _ (by decide)⟩
  intro r hr
  rw [List.eq_of_mem_replicate hr]
  exact ⟨rfl, rfl⟩

/-- C5: for any list of at most 4 processable instructions, the
children of the signing payload are exactly the order cells of the
instructions in input order, and its bits are the replay counter
followed by the send-mode bytes in input order. -/
theorem claim_C5 (w : WalletOptions) (toa : Option String) (amount seqno : Option Nat)
    (p : Option Payload) (mode : Nat) (dummy : Bool) (si : Option Cell)
    (ml : List WalletMessage) (env : Envelope)
    (h4 : ml.length ≤ 4)
    (hwf : ∀ m ∈ ml, m.address.isSome = true ∧ m.amount.isSome = true)
    (h : create_transfer_message w toa amount seqno p mode dummy si
        (some (.list (ml.map .msg))) = .ok env) :
    env.signing_message.refs = ml.map orderOf ∧
    env.signing_message.bits =
      writeUint (pyOr0 seqno) 32 ++
        (ml.map (fun m => writeUint m.send_mode 8)).flatten := by
  have hwf2 : ∀ r ∈ ml.map RecipientItem.msg, wfItem r := by
    intro r hr
    obtain ⟨m, hm, rfl⟩ := List.mem_map.mp hr
    exact hwf m hm
  simp only [create_transfer_message, recipientsLen, List.length_map] at h
  rw [if_neg (by omega)] at h
  simp only [recipientsLoop] at h
  rw [transferLoop_spec _ _ hwf2] at h
  have hsm := (cem_ok_fields _ _ _ _ _ h).1
  rw [hsm]
  constructor
  · simp only [Cell.refs, create_signing_message, List.map_map, List.nil_append]
    rfl
  · simp only [Cell.bits, create_signing_message, List.map_map]
    rfl

/-- C5 witness: a two-instruction batch produces exactly the two order
cells in input order, with the two send-mode bytes after the counter. -/
theorem claim_C5_witness :
    (getEnv (create_transfer_message pkWallet none none (some 7) none 3 true none
        (some (.list ([{ address := some "a", amount := some 1, send_mode := 3 },
                       { address := some "b", amount := some 2, send_mode := 130 }].map
          RecipientItem.msg)))) dfltEnv).signing_message.refs =
      [orderOf { address := some "a", amount := some 1, send_mode := 3 },
       orderOf { address := some "b", amount := some 2, send_mode := 130 }] :=
  (claim_C5 pkWallet none none (some 7) none 3 true none
    [{ address := some "a", amount := some 1, send_mode := 3 },
     { address := some "b", amount := some 2, send_mode := 130 }] _
    (by decide)
    (by intro m hm
        simp only [List.mem_cons, List.not_mem_nil, or_false] at hm
        rcases hm with rfl | rfl <;> exact ⟨rfl, rfl⟩)
    rfl).1

/-- C8: requesting a real signature without a private key fails with
the missing-key error, from `create_transfer_message` as well as from
`create_init_external_message`; a dummy-signature call never reads the
private key (its result is invariant under changing it) and never
reports a missing private key. -/
theorem claim_C8 :
    (∀ (w : WalletOptions) (toa : Option String) (amount seqno : Option Nat)
        (p : Option Payload) (mode : Nat) (si : Option Cell) (l : List RecipientItem),
      w.private_key = none → l.length ≤ 4 → (∀ r ∈ l, wfItem r) →
      create_transfer_message w toa amount seqno p mode false si (some (.list l)) =
        .error .missingPrivateKey) ∧
    (∀ w : WalletOptions, w.private_key = none → w.public_key.isSome = true →
      create_init_external_message w = .error .missingPrivateKey) ∧
    (∀ (w : WalletOptions) (k : Option (List Nat)) (toa : Option String)
        (amount seqno : Option Nat) (p : Option Payload) (mode : Nat)
        (si : Option Cell) (rl : Option Recipients),
      create_transfer_message { w with private_key := k } toa amount seqno p mode true si
          rl =
        create_transfer_message { w with private_key := none } toa amount seqno p mode true
          si rl) ∧
    (∀ (w : WalletOptions) (toa : Option String) (amount seqno : Option Nat)
        (p : Option Payload) (mode : Nat) (si : Option Cell) (rl : Option Recipients),
      create_transfer_message w toa amount seqno p mode true si rl ≠
        .error .missingPrivateKey) := by
  refine ⟨?_, ?_, ?_, ?_⟩
  · intro w toa amount seqno p mode si l hpriv h4 hwf
    simp only [create_transfer_message, recipientsLen]
    rw [if_neg (by omega)]
    simp only [recipientsLoop]
    rw [transferLoop_spec l _ hwf]
    simp [create_external_message, hpriv]
  · intro w hpriv hpub
    obtain ⟨pk, hpk⟩ := Option.isSome_iff_exists.mp hpub
    simp [create_init_external_message, create_state_init, hpk, hpriv]
  · intro w k toa amount seqno p mode si rl
    rfl
  · intro w toa amount seqno p mode si rl h
    simp only [create_transfer_message] at h
    split at h
    · cases h
    · split at h
      · rename_i e hloop
        cases h
        rcases recipientsLoop_error_kinds _ _ _ hloop with he | he <;> cases he
      · exact cem_dummy_not_mpk w _ seqno h

/-- C8 witness: the four parts evaluated on concrete wallets and
recipient lists. -/
theorem claim_C8_witness :
    create_transfer_message { address := some "EQw" } none none (some 1) none 3 false none
        (some (.list [.msg { address := some "EQa", amount := some 5 }])) =
      .error .missingPrivateKey ∧
    create_init_external_message { public_key := some [1] } =
      .error .missingPrivateKey ∧
    create_transfer_message { pkWallet with private_key := some [9] } (some "EQa") (some 5)
        (some 1) none 3 true none none =
      create_transfer_message { pkWallet with private_key := none } (some "EQa") (some 5)
        (some 1) none 3 true none none ∧
    create_transfer_message pkWallet (some "EQa") (some 5) (some 1) none 3 true none none ≠
      .error .missingPrivateKey :=
  ⟨claim_C8.1 { address := some "EQw" } none none (some 1) none 3 none
      [.msg { address := some "EQa", amount := some 5 }] rfl (by decide)
      (by intro r hr
          simp only [List.mem_singleton] at hr
          subst hr
          exact ⟨rfl, rfl⟩),
   claim_C8.2.1 { public_key := some [1] } rfl rfl,
   claim_C8.2.2.1 pkWallet (some [9]) (some "EQa") (some 5) (some 1) none 3 none none,
   claim_C8.2.2.2 pkWallet (some "EQa") (some 5) (some 1) none 3 none none⟩

end TonSdk
